import Mathlib

/-!
Shallow embedding of the spam-filtering bot's rule-evaluation and
sender-reputation subsystem (src/rules.rs and the message-handling flow of
src/main.rs).

Modelling conventions:
* The SQLite database is modelled by its contents: a `Store` holding the
  `rules` table (a list in insertion order, mirroring the auto-increment
  primary key) and the `senders` table (an association list keyed by
  `user_id`).
* Rust `f32` scores are modelled as `ℚ`; the comparisons the code performs
  (`>= 5.0`) agree with rational order on all values the claims concern.
* SQLite `INTEGER` columns are modelled as `ℤ`.
* Fallible database calls (`Connection::execute`, `prepare`, `query_row`)
  are given an explicit success/failure oracle argument (`Bool`), since
  whether the backing medium fails is an environment input.  A `&self`
  method that mutates the database is modelled as a state transformer
  `RuleManager → ... → RuleManager × result`.
* A Rust panic (`.unwrap()` on an `Err`) is modelled as `none` in an
  `Option` result.
* The external Lua interpreter (`rlua`) is modelled by an explicit globals
  environment and a `Script` record giving the behaviour of the script's
  top-level code and of its `check_spam` entry point, each as a function of
  the globals it observes.  `std::fs::read_to_string("rules.lua")` is
  modelled by an `Option Script` argument (`none` = read failure).
-/

namespace SpamBot

/-- A rule row: `rules (id INTEGER PRIMARY KEY, keyword TEXT, score REAL)`,
mirroring `pub struct Rule { keyword: String, score: f32 }` in rules.rs. -/
structure Rule where
  keyword : String
  score : ℚ
deriving DecidableEq, Repr

/-- A senders row: `senders (user_id TEXT PRIMARY KEY, spam_score INTEGER
DEFAULT 0, message_count INTEGER DEFAULT 0)`.  The spec calls `spam_score`
the `spam_flag_count`. -/
structure SenderRecord where
  spam_score : ℤ
  message_count : ℤ
deriving DecidableEq, Repr

/-- The contents of the SQLite database `rules.db`: the two tables created
by `RuleManager::new`. -/
structure Store where
  rules : List Rule
  senders : List (String × SenderRecord)
deriving DecidableEq, Repr

/-- `SELECT ... FROM senders WHERE user_id = ?1`: first row whose key equals
`uid`. -/
def lookupSenders (l : List (String × SenderRecord)) (uid : String) :
    Option SenderRecord :=
  match l with
  | [] => none
  | (k, r) :: rest => if k == uid then some r else lookupSenders rest uid

/-- Row lookup on a store's senders table. -/
def Store.lookupSender (s : Store) (uid : String) : Option SenderRecord :=
  lookupSenders s.senders uid

/-- The single SQL statement of `increment_sender_score`:
`INSERT INTO senders (user_id, spam_score, message_count) VALUES (?1, ?2, 1)
ON CONFLICT(user_id) DO UPDATE SET spam_score = spam_score + ?2,
message_count = message_count + 1`. -/
def upsertSenders (l : List (String × SenderRecord)) (uid : String)
    (inc : ℤ) : List (String × SenderRecord) :=
  match l with
  | [] => [(uid, ⟨inc, 1⟩)]
  | (k, r) :: rest =>
    if k == uid then
      (k, ⟨r.spam_score + inc, r.message_count + 1⟩) :: rest
    else
      (k, r) :: upsertSenders rest uid inc

/-- A `rusqlite::Error` surfaced from the backing store (the spec's
`StorageError`). -/
inductive DbError where
  | storageError
deriving DecidableEq, Repr

/-- `pub struct RuleManager { conn: Mutex<Connection>, rules:
Arc<Mutex<Vec<Rule>>> }`: the database contents behind `conn` and the
in-memory rule cache. -/
structure RuleManager where
  conn : Store
  rules : List Rule
deriving DecidableEq, Repr

/-- `RuleManager::new`: `CREATE TABLE IF NOT EXISTS` for both tables (which
keeps every existing row — on the contents level it is the identity; a
fresh database file is the store `⟨[], []⟩`), then
`SELECT keyword, score FROM rules` collected in order into the cache. -/
def RuleManager.new (db : Store) : RuleManager :=
  { conn := db, rules := db.rules }

/-- `RuleManager::add_rule`: `INSERT INTO rules (keyword, score) VALUES
(?1, ?2)` — the `?` operator propagates an insert failure before the cache
is touched — then `rules.push(Rule { keyword, score })`.  `insertOk` is the
oracle for whether the durable INSERT succeeds. -/
def RuleManager.add_rule (m : RuleManager) (insertOk : Bool)
    (keyword : String) (score : ℚ) : RuleManager × Except DbError Unit :=
  if insertOk then
    ({ conn := { m.conn with rules := m.conn.rules ++ [⟨keyword, score⟩] },
       rules := m.rules ++ [⟨keyword, score⟩] },
     Except.ok ())
  else
    (m, Except.error DbError.storageError)

/-- `RuleManager::increment_sender_score`: `let increment = if is_spam { 1 }
else { 0 }` followed by the single upsert statement on `senders`.  `execOk`
is the oracle for whether the statement succeeds; on failure the database
is unchanged and the error is returned. -/
def RuleManager.increment_sender_score (m : RuleManager) (execOk : Bool)
    (user_id : String) (is_spam : Bool) : RuleManager × Except DbError Unit :=
  if execOk then
    let increment : ℤ := if is_spam then 1 else 0
    ({ conn := { m.conn with
         senders := upsertSenders m.conn.senders user_id increment },
       rules := m.rules },
     Except.ok ())
  else
    (m, Except.error DbError.storageError)

/-- `RuleManager::get_sender_score`:
`conn.prepare("SELECT spam_score FROM senders WHERE user_id = ?1").unwrap()`
— a prepare failure panics (modelled as `none`) — then
`stmt.query_row(...).unwrap_or(0)`: a query failure, including
`QueryReturnedNoRows` for an absent sender, is swallowed to `0`.
`prepareOk` and `queryOk` are the oracles for the two backing-store calls. -/
def RuleManager.get_sender_score (m : RuleManager) (prepareOk : Bool)
    (queryOk : Bool) (user_id : String) : Option ℤ :=
  if prepareOk then
    some (if queryOk then
            match m.conn.lookupSender user_id with
            | some r => r.spam_score
            | none => 0
          else 0)
  else
    none

/-- A Lua value as far as this embedding needs: globals are nil until set. -/
inductive LuaVal where
  | nil
  | str (s : String)
deriving DecidableEq, Repr

/-- The globals table of one `rlua` interpreter instance. -/
abbrev LuaGlobals := List (String × LuaVal)

/-- `globals.set(k, v)`. -/
def setGlobal (g : LuaGlobals) (k : String) (v : LuaVal) : LuaGlobals :=
  match g with
  | [] => [(k, v)]
  | (k', v') :: rest =>
    if k' == k then (k, v) :: rest else (k', v') :: setGlobal rest k v

/-- Reading a global: an unset name is `nil`. -/
def getGlobal (g : LuaGlobals) (k : String) : LuaVal :=
  match g with
  | [] => LuaVal.nil
  | (k', v) :: rest => if k' == k then v else getGlobal rest k

/-- An `rlua::Error`: parse failure, runtime failure, missing `check_spam`,
or failed coercion of the result to `f32`. -/
inductive LuaError where
  | err
deriving DecidableEq, Repr

/-- The behaviour of the external `rules.lua` script, as a function of the
globals it observes.  `exec` is `lua_ctx.load(&script).exec()` (the
top-level body: it may error, and it may define globals such as
`check_spam`); `callCheckSpam` is
`lua_ctx.load("return check_spam(message)").eval::<f32>()`. -/
structure Script where
  exec : LuaGlobals → Except LuaError LuaGlobals
  callCheckSpam : LuaGlobals → Except LuaError ℚ

/-- The globals of the fresh `Lua::new()` instance at the moment the script
body is executed: nothing has been set yet. -/
def globalsAtExec : LuaGlobals := []

/-- The globals at the moment `check_spam(message)` is evaluated: the
post-exec globals with `message` bound to the input text. -/
def globalsAtCall (g : LuaGlobals) (message : String) : LuaGlobals :=
  setGlobal g "message" (LuaVal.str message)

/-- `Result::unwrap_or` on the score coming out of the Lua context. -/
def unwrapOr (e : Except LuaError ℚ) (d : ℚ) : ℚ :=
  match e with
  | Except.ok v => v
  | Except.error _ => d

/-- `RuleManager::check_custom_rules`: a fresh Lua instance; read
`rules.lua` (`script? = none` models a read failure, which logs and returns
`Ok(0.0)` inside the context); execute the script's top level; set the
global `message`; evaluate `check_spam(message)`; `unwrap_or(0.0)` on the
context's result.  The method takes `&self` and touches neither `conn` nor
`rules`; it is returned unchanged as the first component. -/
def RuleManager.check_custom_rules (m : RuleManager) (script? : Option Script)
    (message : String) : RuleManager × ℚ :=
  (m,
   unwrapOr
     (match script? with
      | none => Except.ok 0
      | some s =>
        match s.exec globalsAtExec with
        | Except.error e => Except.error e
        | Except.ok g => s.callCheckSpam (globalsAtCall g message))
     0)

/-- The spam threshold hardcoded as the literal `5.0` at both comparison
sites (main.rs lines 84 and 152). -/
def SPAM_THRESHOLD : ℚ := 5

/-- The classification `custom_score >= 5.0` performed by `check_message`
(and by the `/report` handler). -/
def classify_is_spam (score : ℚ) : Bool := SPAM_THRESHOLD ≤ score

/-- Rust `text.starts_with('/')`: the first character is `'/'` (false on an
empty string). -/
def startsWithSlash (t : String) : Bool :=
  match t.data with
  | [] => false
  | c :: _ => c == '/'

/-- `check_message` from main.rs, restricted to its effect on the
`RuleManager` state: a non-text message does nothing; a text starting with
`'/'` returns immediately; otherwise the score is computed by
`check_custom_rules`, `is_spam := score >= 5.0`, and
`increment_sender_score(user_id, is_spam)` runs (its error is only
logged).  `incOk` is the oracle for the upsert's database statement. -/
def check_message (m : RuleManager) (script? : Option Script) (incOk : Bool)
    (user_id : String) (text : Option String) : RuleManager :=
  match text with
  | none => m
  | some t =>
    if startsWithSlash t then m
    else
      let res := m.check_custom_rules script? t
      let is_spam := classify_is_spam res.2
      (res.1.increment_sender_score incOk user_id is_spam).1

/-- One call into the `RuleManager`, with its environment oracles. -/
inductive Op where
  | incScore (execOk : Bool) (uid : String) (is_spam : Bool)
  | addRule (insertOk : Bool) (keyword : String) (score : ℚ)
  | getScore (prepareOk : Bool) (queryOk : Bool) (uid : String)
  | checkRules (script? : Option Script) (message : String)

/-- The state change of one `RuleManager` call (`get_sender_score` and
`check_custom_rules` take `&self` and return the state unchanged). -/
def stepOp (m : RuleManager) : Op → RuleManager
  | Op.incScore ok uid f => (m.increment_sender_score ok uid f).1
  | Op.addRule ok k s => (m.add_rule ok k s).1
  | Op.getScore _ _ _ => m
  | Op.checkRules s msg => (m.check_custom_rules s msg).1

/-- Running a sequence of calls. -/
def runOps (m : RuleManager) : List Op → RuleManager
  | [] => m
  | op :: ops => runOps (stepOp m op) ops

/-- A sequence of successful `add_rule` calls. -/
def runAdds (m : RuleManager) : List (String × ℚ) → RuleManager
  | [] => m
  | (k, s) :: rest => runAdds (m.add_rule true k s).1 rest

/-- Componentwise order on sender counters. -/
def SenderLE (a b : SenderRecord) : Prop :=
  a.spam_score ≤ b.spam_score ∧ a.message_count ≤ b.message_count

/-- Every sender record present in `s` is still present in `s'` with
counters at least as large: no decrement, no deletion. -/
def StoreMono (s s' : Store) : Prop :=
  ∀ uid r, s.lookupSender uid = some r →
    ∃ r', s'.lookupSender uid = some r' ∧ SenderLE r r'

/-- Both counters of every sender record are non-negative. -/
def StoreNonNeg (s : Store) : Prop :=
  ∀ uid r, s.lookupSender uid = some r →
    0 ≤ r.spam_score ∧ 0 ≤ r.message_count

/-! ### Helper lemmas about the senders upsert and the Lua globals -/

/-- After the upsert, the targeted row holds the incremented counters
(`message_count + 1`, `spam_score + inc`), or `⟨inc, 1⟩` if it was absent. -/
theorem lookupSenders_upsert_self (l : List (String × SenderRecord))
    (uid : String) (inc : ℤ) :
    lookupSenders (upsertSenders l uid inc) uid =
      some (match lookupSenders l uid with
            | some r => ⟨r.spam_score + inc, r.message_count + 1⟩
            | none => ⟨inc, 1⟩) := by
  induction l with
  | nil => simp [upsertSenders, lookupSenders]
  | cons hd tl ih =>
    obtain ⟨k, r⟩ := hd
    by_cases h : k = uid
    · subst h
      simp [upsertSenders, lookupSenders]
    · simp [upsertSenders, lookupSenders, h, ih]

/-- The upsert leaves every other row untouched. -/
theorem lookupSenders_upsert_other (l : List (String × SenderRecord))
    (uid uid2 : String) (inc : ℤ) (h : uid2 ≠ uid) :
    lookupSenders (upsertSenders l uid inc) uid2 = lookupSenders l uid2 := by
  induction l with
  | nil => simp [upsertSenders, lookupSenders, Ne.symm h]
  | cons hd tl ih =>
    obtain ⟨k, r⟩ := hd
    by_cases hk : k = uid
    · subst hk
      simp [upsertSenders, lookupSenders, Ne.symm h]
    · by_cases hk2 : k = uid2
      · subst hk2
        simp [upsertSenders, lookupSenders, hk]
      · simp [upsertSenders, lookupSenders, hk, hk2, ih]

/-- Reading back a freshly set global. -/
theorem getGlobal_setGlobal (g : LuaGlobals) (k : String) (v : LuaVal) :
    getGlobal (setGlobal g k v) k = v := by
  induction g with
  | nil => simp [setGlobal, getGlobal]
  | cons hd tl ih =>
    obtain ⟨k', v'⟩ := hd
    by_cases h : k' = k
    · subst h
      simp [setGlobal, getGlobal]
    · simp [setGlobal, getGlobal, h, ih]

/-- Neither branch of `add_rule` touches the senders table. -/
theorem add_rule_senders (m : RuleManager) (ok : Bool) (k : String) (s : ℚ) :
    ((m.add_rule ok k s).1).conn.senders = m.conn.senders := by
  cases ok <;> rfl

/-! ### Claim theorems -/

/-- Claim C1: a successful `increment_sender_score(s, f)` call returns `Ok`,
increases `s`'s `message_count` by exactly 1 and its `spam_score` (the
spec's `spam_flag_count`) by 1 iff `f`, creates the record as
`⟨if f then 1 else 0, 1⟩` when absent, leaves every other sender's record
unchanged, and on a fresh sender the calls `(true)` then `(false)` yield
`spam_score = 1`, `message_count = 2`. -/
theorem increment_updates_counters (m : RuleManager) (uid : String)
    (f : Bool) :
    (m.increment_sender_score true uid f).2 = Except.ok () ∧
    (∀ r, m.conn.lookupSender uid = some r →
      (m.increment_sender_score true uid f).1.conn.lookupSender uid =
        some ⟨r.spam_score + (if f then 1 else 0), r.message_count + 1⟩) ∧
    (m.conn.lookupSender uid = none →
      (m.increment_sender_score true uid f).1.conn.lookupSender uid =
        some ⟨(if f then 1 else 0), 1⟩) ∧
    (∀ uid2, uid2 ≠ uid →
      (m.increment_sender_score true uid f).1.conn.lookupSender uid2 =
        m.conn.lookupSender uid2) ∧
    (m.conn.lookupSender uid = none →
      (((m.increment_sender_score true uid true).1.increment_sender_score
          true uid false).1).conn.lookupSender uid = some ⟨1, 2⟩) := by
  refine ⟨rfl, ?_, ?_, ?_, ?_⟩
  · intro r hr
    simp only [RuleManager.increment_sender_score, if_true,
      Store.lookupSender] at *
    rw [lookupSenders_upsert_self, hr]
  · intro hr
    simp only [RuleManager.increment_sender_score, if_true,
      Store.lookupSender] at *
    rw [lookupSenders_upsert_self, hr]
  · intro uid2 h2
    simp only [RuleManager.increment_sender_score, if_true,
      Store.lookupSender]
    exact lookupSenders_upsert_other _ _ _ _ h2
  · intro hr
    simp only [RuleManager.increment_sender_score, if_true,
      Store.lookupSender] at *
    rw [lookupSenders_upsert_self, lookupSenders_upsert_self, hr]
    simp

/-- Witness for C1 at a concrete fresh sender. -/
theorem increment_updates_counters_witness :
    ((RuleManager.mk ⟨[], []⟩ []).increment_sender_score true "u"
        true).1.conn.lookupSender "u" = some ⟨1, 1⟩ ∧
    ((((RuleManager.mk ⟨[], []⟩ []).increment_sender_score true "u"
        true).1.increment_sender_score true "u"
        false).1).conn.lookupSender "u" = some ⟨1, 2⟩ ∧
    ((RuleManager.mk ⟨[], []⟩ []).increment_sender_score true "u"
        true).1.conn.lookupSender "v" = none := by
  have h := increment_updates_counters (RuleManager.mk ⟨[], []⟩ []) "u" true
  refine ⟨?_, h.2.2.2.2 rfl, ?_⟩
  · have h1 := h.2.2.1 rfl
    simpa using h1
  · have h2 := h.2.2.2.1 "v" (by decide)
    simpa using h2

/-- Claim C2: `is_spam` is `score >= 5.0` with an inclusive threshold:
true exactly when `5 ≤ score`, true at exactly `5`, false strictly below
`5`; and for a non-command text message, `check_message` feeds exactly this
classification of the script score into `increment_sender_score`. -/
theorem spam_threshold_inclusive :
    (∀ q : ℚ, classify_is_spam q = true ↔ SPAM_THRESHOLD ≤ q) ∧
    classify_is_spam 5 = true ∧
    (∀ q : ℚ, q < 5 → classify_is_spam q = false) ∧
    (∀ m script? incOk uid t, startsWithSlash t = false →
      check_message m script? incOk uid (some t) =
        ((m.check_custom_rules script? t).1.increment_sender_score incOk uid
          (classify_is_spam (m.check_custom_rules script? t).2)).1) := by
  refine ⟨?_, ?_, ?_, ?_⟩
  · intro q
    simp [classify_is_spam]
  · simp [classify_is_spam, SPAM_THRESHOLD]
  · intro q hq
    simp [classify_is_spam, SPAM_THRESHOLD]
    linarith
  · intro m script? incOk uid t ht
    simp [check_message, ht]

/-- Witness for C2: the boundary score `5` is spam, `9/2` is not, and a
concrete non-command message goes through the classification. -/
theorem spam_threshold_inclusive_witness :
    classify_is_spam 5 = true ∧
    classify_is_spam (9 / 2) = false ∧
    check_message (RuleManager.mk ⟨[], []⟩ []) none true "u" (some "hi") =
      (((RuleManager.mk ⟨[], []⟩ []).check_custom_rules none
          "hi").1.increment_sender_score true "u"
        (classify_is_spam ((RuleManager.mk ⟨[], []⟩ []).check_custom_rules
          none "hi").2)).1 := by
  refine ⟨spam_threshold_inclusive.2.1, ?_, ?_⟩
  · exact spam_threshold_inclusive.2.2.1 (9 / 2) (by norm_num)
  · exact spam_threshold_inclusive.2.2.2 (RuleManager.mk ⟨[], []⟩ []) none
      true "u" "hi" (by decide)

/-- Claim C3: `check_custom_rules` returns `0.0` and propagates no error
when the `rules.lua` read fails, when the script's top-level execution
fails, and when `check_spam(message)` fails (missing entry point, runtime
error, failed coercion are all `rlua` errors); and a score of `0` is
classified as not spam, so evaluation yields `(0.0, false)`. -/
theorem script_failures_yield_zero :
    (∀ (m : RuleManager) (msg : String),
      m.check_custom_rules none msg = (m, 0)) ∧
    (∀ (m : RuleManager) (msg : String) (s : Script) (e : LuaError),
      s.exec globalsAtExec = Except.error e →
      m.check_custom_rules (some s) msg = (m, 0)) ∧
    (∀ (m : RuleManager) (msg : String) (s : Script) (g : LuaGlobals)
        (e : LuaError),
      s.exec globalsAtExec = Except.ok g →
      s.callCheckSpam (globalsAtCall g msg) = Except.error e →
      m.check_custom_rules (some s) msg = (m, 0)) ∧
    classify_is_spam 0 = false := by
  refine ⟨?_, ?_, ?_, ?_⟩
  · intro m msg
    rfl
  · intro m msg s e he
    simp [RuleManager.check_custom_rules, he, unwrapOr]
  · intro m msg s g e hg hc
    simp [RuleManager.check_custom_rules, hg, hc, unwrapOr]
  · simp [classify_is_spam, SPAM_THRESHOLD]

/-- Witness for C3 at two concrete failing scripts: one whose top level
errors, one whose `check_spam` call errors. -/
theorem script_failures_yield_zero_witness :
    (RuleManager.mk ⟨[], []⟩ []).check_custom_rules none "x" =
      (RuleManager.mk ⟨[], []⟩ [], 0) ∧
    (RuleManager.mk ⟨[], []⟩ []).check_custom_rules
      (some ⟨fun _ => Except.error LuaError.err,
             fun _ => Except.error LuaError.err⟩) "x" =
      (RuleManager.mk ⟨[], []⟩ [], 0) ∧
    (RuleManager.mk ⟨[], []⟩ []).check_custom_rules
      (some ⟨fun g => Except.ok g,
             fun _ => Except.error LuaError.err⟩) "x" =
      (RuleManager.mk ⟨[], []⟩ [], 0) := by
  refine ⟨script_failures_yield_zero.1 _ "x", ?_, ?_⟩
  · exact script_failures_yield_zero.2.1 _ "x" _ LuaError.err rfl
  · exact script_failures_yield_zero.2.2.1 _ "x" _ globalsAtExec
      LuaError.err rfl rfl

/-- Claim C4, counterexample: `get_sender_score` does not swallow every
backing-store error — `conn.prepare(...).unwrap()` panics (aborts) when the
prepare call fails, instead of returning 0.  At the concrete input below a
prepare failure yields `none` (the panic), not `some 0`. -/
theorem get_sender_score_prepare_panics :
    (RuleManager.mk ⟨[], []⟩ []).get_sender_score false true "u" = none ∧
    (RuleManager.mk ⟨[], []⟩ []).get_sender_score false true "u" ≠
      some 0 := by
  refine ⟨rfl, ?_⟩
  simp [RuleManager.get_sender_score]

/-- Claim C4 as amended: when the statement prepare succeeds,
`get_sender_score` never fails: it returns the stored `spam_score` (the
spec's `spam_flag_count`), `0` when the sender has no record, and `0` when
the `query_row` call itself errors (store errors in the query are swallowed
by `unwrap_or(0)`); only a prepare failure escapes, as a panic. -/
theorem get_sender_score_amended (m : RuleManager) (queryOk : Bool)
    (uid : String) :
    (∃ k, m.get_sender_score true queryOk uid = some k) ∧
    (∀ r, m.conn.lookupSender uid = some r →
      m.get_sender_score true true uid = some r.spam_score) ∧
    (m.conn.lookupSender uid = none →
      m.get_sender_score true true uid = some 0) ∧
    m.get_sender_score true false uid = some 0 := by
  refine ⟨?_, ?_, ?_, rfl⟩
  · cases queryOk <;> exact ⟨_, rfl⟩
  · intro r hr
    simp [RuleManager.get_sender_score, hr]
  · intro hr
    simp [RuleManager.get_sender_score, hr]

/-- Witness for the amended C4 at a concrete store with one sender row. -/
theorem get_sender_score_amended_witness :
    (RuleManager.mk ⟨[], [("u", ⟨3, 7⟩)]⟩ []).get_sender_score true true
      "u" = some 3 ∧
    (RuleManager.mk ⟨[], [("u", ⟨3, 7⟩)]⟩ []).get_sender_score true true
      "v" = some 0 ∧
    (RuleManager.mk ⟨[], [("u", ⟨3, 7⟩)]⟩ []).get_sender_score true false
      "u" = some 0 := by
  have h := get_sender_score_amended
    (RuleManager.mk ⟨[], [("u", ⟨3, 7⟩)]⟩ []) true "u"
  have h2 := get_sender_score_amended
    (RuleManager.mk ⟨[], [("u", ⟨3, 7⟩)]⟩ []) false "v"
  refine ⟨h.2.1 ⟨3, 7⟩ (by decide), h2.2.2.1 (by decide), h.2.2.2⟩

/-- Claim C5: `add_rule` is write-through — the durable `INSERT` comes
first, and when it fails the error is returned with the whole manager, the
in-memory cache included, unchanged; when it succeeds, exactly the one new
`⟨keyword, score⟩` entry is appended to the cache and to the durable rules
table, the senders table is untouched, and `Ok(())` is returned. -/
theorem add_rule_write_through (m : RuleManager) (k : String) (s : ℚ) :
    m.add_rule false k s = (m, Except.error DbError.storageError) ∧
    (m.add_rule true k s).1.rules = m.rules ++ [⟨k, s⟩] ∧
    (m.add_rule true k s).1.conn.rules = m.conn.rules ++ [⟨k, s⟩] ∧
    (m.add_rule true k s).1.conn.senders = m.conn.senders ∧
    (m.add_rule true k s).2 = Except.ok () := by
  exact ⟨rfl, rfl, rfl, rfl, rfl⟩

/-- Claim C8: `check_custom_rules` takes `&self` and never writes: the
manager it returns — rules table, senders table and in-memory cache — is
the one it was given, for every script behaviour and message. -/
theorem check_custom_rules_frame (m : RuleManager) (script? : Option Script)
    (msg : String) :
    (m.check_custom_rules script? msg).1 = m ∧
    (m.check_custom_rules script? msg).1.conn.rules = m.conn.rules ∧
    (m.check_custom_rules script? msg).1.conn.senders = m.conn.senders ∧
    (m.check_custom_rules script? msg).1.rules = m.rules := by
  exact ⟨rfl, rfl, rfl, rfl⟩

/-- Claim C9: a text message starting with `'/'` makes `check_message`
return immediately: the state is returned unchanged, for every script and
every upsert oracle, so no sender's counters move and the rules are never
evaluated. -/
theorem command_messages_skipped (m : RuleManager) (script? : Option Script)
    (incOk : Bool) (uid : String) (t : String)
    (h : startsWithSlash t = true) :
    check_message m script? incOk uid (some t) = m := by
  simp [check_message, h]

/-- Witness for C9 at the concrete command text `"/start"`. -/
theorem command_messages_skipped_witness :
    check_message (RuleManager.mk ⟨[], [("u", ⟨3, 7⟩)]⟩ []) none true "u"
      (some "/start") = RuleManager.mk ⟨[], [("u", ⟨3, 7⟩)]⟩ [] := by
  exact command_messages_skipped _ none true "u" "/start" (by decide)

/-- Accumulated effect of a run of successful `add_rule` calls: the new
rules are appended, in order, to both the durable table and the cache, and
the senders table is untouched. -/
theorem runAdds_state (m : RuleManager) (adds : List (String × ℚ)) :
    (runAdds m adds).conn.rules =
      m.conn.rules ++ adds.map (fun p => Rule.mk p.1 p.2) ∧
    (runAdds m adds).conn.senders = m.conn.senders ∧
    (runAdds m adds).rules = m.rules ++ adds.map (fun p => Rule.mk p.1 p.2) := by
  induction adds generalizing m with
  | nil => simp [runAdds]
  | cons hd tl ih =>
    obtain ⟨k, s⟩ := hd
    have h := ih (m.add_rule true k s).1
    simp only [RuleManager.add_rule, if_true] at h
    simp [runAdds, RuleManager.add_rule, h.1, h.2.1, h.2.2]

/-- Claim C7: after any sequence of successful `add_rule` calls starting
from `RuleManager::new` over a store `db`, re-running `RuleManager::new`
over the resulting store succeeds with a cache holding exactly the store's
rows — `db`'s original rules followed by the added ones, in insertion
order — and re-initialization drops nothing: the store comes back
unchanged, rules and senders alike. -/
theorem reinit_loads_added_rules (db : Store) (adds : List (String × ℚ)) :
    (RuleManager.new ((runAdds (RuleManager.new db) adds).conn)).rules =
      db.rules ++ adds.map (fun p => Rule.mk p.1 p.2) ∧
    (RuleManager.new ((runAdds (RuleManager.new db) adds).conn)).conn =
      (runAdds (RuleManager.new db) adds).conn ∧
    (runAdds (RuleManager.new db) adds).conn.rules =
      db.rules ++ adds.map (fun p => Rule.mk p.1 p.2) ∧
    (runAdds (RuleManager.new db) adds).conn.senders = db.senders := by
  have h := runAdds_state (RuleManager.new db) adds
  exact ⟨by simpa [RuleManager.new] using h.1, rfl,
    by simpa [RuleManager.new] using h.1,
    by simpa [RuleManager.new] using h.2.1⟩

/-- Claim C10: in `check_custom_rules` the script's top level runs before
the `message` global is bound — at exec time `message` reads as nil, at
`check_spam(message)` time it reads as the input text, and the result is
unchanged if the top level's behaviour is altered arbitrarily on globals
where `message` is already bound (so the top level can never observe the
message). -/
theorem message_unbound_at_exec :
    getGlobal globalsAtExec "message" = LuaVal.nil ∧
    (∀ (g : LuaGlobals) (msg : String),
      getGlobal (globalsAtCall g msg) "message" = LuaVal.str msg) ∧
    (∀ (m : RuleManager) (msg : String) (s1 s2 : Script),
      s1.callCheckSpam = s2.callCheckSpam →
      (∀ g, getGlobal g "message" = LuaVal.nil → s1.exec g = s2.exec g) →
      m.check_custom_rules (some s1) msg =
        m.check_custom_rules (some s2) msg) := by
  refine ⟨rfl, ?_, ?_⟩
  · intro g msg
    exact getGlobal_setGlobal g "message" (LuaVal.str msg)
  · intro m msg s1 s2 hcall hexec
    have he : s1.exec globalsAtExec = s2.exec globalsAtExec := hexec _ rfl
    simp [RuleManager.check_custom_rules, he, hcall]

/-- Witness for C10: a script whose top level would error whenever
`message` is already bound behaves exactly like one that never checks —
the top level provably runs on message-free globals. -/
theorem message_unbound_at_exec_witness :
    (RuleManager.mk ⟨[], []⟩ []).check_custom_rules
        (some ⟨fun g => Except.ok g, fun _ => Except.ok 2⟩) "x" =
      (RuleManager.mk ⟨[], []⟩ []).check_custom_rules
        (some ⟨fun g => if getGlobal g "message" = LuaVal.nil then
                          Except.ok g
                        else Except.error LuaError.err,
               fun _ => Except.ok 2⟩) "x" := by
  exact message_unbound_at_exec.2.2 _ "x" _ _ rfl
    (by intro g hg; simp [hg])

/-- `0 ≤ if f then 1 else 0`: the upsert's increments never go down. -/
theorem inc_nonneg (f : Bool) : (0 : ℤ) ≤ if f then 1 else 0 := by
  cases f <;> decide

/-- `StoreMono` is reflexive. -/
theorem storeMono_refl (s : Store) : StoreMono s s :=
  fun _ r h => ⟨r, h, le_refl _, le_refl _⟩

/-- `StoreMono` is transitive. -/
theorem storeMono_trans {s1 s2 s3 : Store} (h12 : StoreMono s1 s2)
    (h23 : StoreMono s2 s3) : StoreMono s1 s3 := by
  intro uid r h
  obtain ⟨r2, h2, le12a, le12b⟩ := h12 uid r h
  obtain ⟨r3, h3, le23a, le23b⟩ := h23 uid r2 h2
  exact ⟨r3, h3, le_trans le12a le23a, le_trans le12b le23b⟩

/-- Every single `RuleManager` call leaves each existing sender record in
place with counters at least as large. -/
theorem stepOp_mono (m : RuleManager) (op : Op) :
    StoreMono m.conn (stepOp m op).conn := by
  cases op with
  | incScore ok uid f =>
    cases ok with
    | false => exact storeMono_refl _
    | true =>
      intro uid0 r h
      by_cases he : uid0 = uid
      · subst he
        refine ⟨⟨r.spam_score + (if f then 1 else 0),
                 r.message_count + 1⟩, ?_, ?_, ?_⟩
        · show lookupSenders (upsertSenders m.conn.senders uid0 _) uid0 = _
          rw [lookupSenders_upsert_self]
          have h' : lookupSenders m.conn.senders uid0 = some r := h
          rw [h']
        · exact le_add_of_nonneg_right (inc_nonneg f)
        · exact le_add_of_nonneg_right (by decide)
      · refine ⟨r, ?_, le_refl _, le_refl _⟩
        show lookupSenders (upsertSenders m.conn.senders uid _) uid0 = _
        rw [lookupSenders_upsert_other _ _ _ _ he]
        exact h
  | addRule ok k s =>
    intro uid r h
    refine ⟨r, ?_, le_refl _, le_refl _⟩
    show lookupSenders ((m.add_rule ok k s).1).conn.senders uid = some r
    rw [add_rule_senders]
    exact h
  | getScore p q uid => exact storeMono_refl _
  | checkRules s msg => exact storeMono_refl _

/-- Every single `RuleManager` call preserves non-negativity of all sender
counters. -/
theorem stepOp_nonneg (m : RuleManager) (op : Op)
    (h : StoreNonNeg m.conn) : StoreNonNeg (stepOp m op).conn := by
  cases op with
  | incScore ok uid f =>
    cases ok with
    | false => exact h
    | true =>
      intro uid0 r0 h0
      by_cases he : uid0 = uid
      · subst he
        have h0' : lookupSenders (upsertSenders m.conn.senders uid0
            (if f then 1 else 0)) uid0 = some r0 := h0
        rw [lookupSenders_upsert_self] at h0'
        cases hl : lookupSenders m.conn.senders uid0 with
        | some r =>
          rw [hl] at h0'
          obtain ⟨hs, hc⟩ := h uid0 r hl
          cases h0'
          exact ⟨add_nonneg hs (inc_nonneg f),
            add_nonneg hc (by decide)⟩
        | none =>
          rw [hl] at h0'
          cases h0'
          exact ⟨inc_nonneg f, show (0 : ℤ) ≤ 1 by decide⟩
      · have h0' : lookupSenders (upsertSenders m.conn.senders uid
            (if f then 1 else 0)) uid0 = some r0 := h0
        rw [lookupSenders_upsert_other _ _ _ _ he] at h0'
        exact h uid0 r0 h0'
  | addRule ok k s =>
    intro uid r0 h0
    have h0' : lookupSenders ((m.add_rule ok k s).1).conn.senders uid =
        some r0 := h0
    rw [add_rule_senders] at h0'
    exact h uid r0 h0'
  | getScore p q uid => exact h
  | checkRules s msg => exact h

/-- Monotonicity over a whole run of calls. -/
theorem runOps_mono (m : RuleManager) (ops : List Op) :
    StoreMono m.conn (runOps m ops).conn := by
  induction ops generalizing m with
  | nil => exact storeMono_refl _
  | cons op ops ih =>
    exact storeMono_trans (stepOp_mono m op) (ih (stepOp m op))

/-- Non-negativity over a whole run of calls. -/
theorem runOps_nonneg (m : RuleManager) (ops : List Op)
    (h : StoreNonNeg m.conn) : StoreNonNeg (runOps m ops).conn := by
  induction ops generalizing m with
  | nil => exact h
  | cons op ops ih => exact ih _ (stepOp_nonneg m op h)

/-- Claim C6: across any sequence of `increment_sender_score`, `add_rule`,
`get_sender_score` and `check_custom_rules` calls, every existing sender
record survives with both counters non-decreasing (never decremented,
never deleted), and counter non-negativity is an invariant. -/
theorem counters_monotone (m : RuleManager) (ops : List Op) :
    StoreMono m.conn (runOps m ops).conn ∧
    (StoreNonNeg m.conn → StoreNonNeg (runOps m ops).conn) :=
  ⟨runOps_mono m ops, runOps_nonneg m ops⟩

/-- Witness for C6 on a concrete one-sender store and a concrete run. -/
theorem counters_monotone_witness :
    (∃ r', (runOps (RuleManager.mk ⟨[], [("u", ⟨0, 5⟩)]⟩ [])
        [Op.incScore true "u" true, Op.addRule true "k" 2]).conn.lookupSender
          "u" = some r' ∧ SenderLE ⟨0, 5⟩ r') ∧
    StoreNonNeg (runOps (RuleManager.mk ⟨[], [("u", ⟨0, 5⟩)]⟩ [])
        [Op.incScore true "u" true, Op.addRule true "k" 2]).conn := by
  have h := counters_monotone (RuleManager.mk ⟨[], [("u", ⟨0, 5⟩)]⟩ [])
    [Op.incScore true "u" true, Op.addRule true "k" 2]
  refine ⟨h.1 "u" ⟨0, 5⟩ (by decide), h.2 ?_⟩
  intro uid r hr
  have hr' : lookupSenders [("u", ⟨0, 5⟩)] uid = some r := hr
  simp only [lookupSenders] at hr'
  split at hr'
  · cases hr'
    exact ⟨by decide, by decide⟩
  · cases hr'

end SpamBot
